import Mathlib

/-!
# Book catalog service (main.go)

A shallow embedding of the four request handlers of main.go over the
in-memory catalog, and the properties of the catalog they maintain.

The global slice books is passed explicitly: every handler takes the catalog
and the response writer and returns both.  Calls into the Go standard library
are modelled by what they do to those two values:

* the outcome of decoder.Decode(&b) is part of the request (the contents of b
  afterwards and the error, if any);
* json.Marshal cannot fail on a Book, a BookResponse or a map of strings, so
  the branches guarded by its error (status 500) are never taken and are left
  out; what is written to the response is recorded as the value that was
  marshalled, not as its text;
* sort.Slice is modelled by insertion sort.
-/

namespace BookCatalog

/-- Book record of main.go.  The two uint fields are natural numbers: the only
arithmetic on them is len(books) + 1, which cannot wrap because the length of a
slice of 48-byte records is far below the largest int. -/
structure Book where
  Author : String
  Title : String
  YearPublished : Nat
  Id : Nat
  deriving DecidableEq, Repr

/-- Error returned by decoder.Decode.  The handler only asks whether it is a
json.UnmarshalTypeError (errors.As), whose Field it then prints; of every other
error it prints err.Error().  The error raised for an unknown field under
DisallowUnknownFields is of the second kind. -/
inductive DecodeError where
  | unmarshalType (field : String)
  | other (text : String)
  deriving DecidableEq, Repr

/-- Text of the error the decoder raises for an object key that is not a field
of Book when DisallowUnknownFields is set; it is built with fmt.Errorf and is
not an UnmarshalTypeError. -/
def unknownField (key : String) : DecodeError :=
  DecodeError.other ("json: unknown field \"" ++ key ++ "\"")

/-- What AddBookHandler reads of a request: the Content-Type header (empty when
absent), the contents of b after decoder.Decode(&b) and the error it returned. -/
structure Request where
  contentType : String
  decoded : Book
  err : Option DecodeError
  deriving DecidableEq, Repr

/-- One call of w.Write, recorded as the value whose JSON encoding was written:
the map with the single key message, a Book, or a BookResponse. -/
inductive Payload where
  | message (text : String)
  | book (b : Book)
  | books (bs : List Book)
  deriving DecidableEq, Repr

/-- The http.ResponseWriter: the Content-Type entry of the header map, the
status line once sent together with the Content-Type sent with it, and the
writes to the body in order. -/
structure ResponseWriter where
  header : Option String := none
  status : Option Nat := none
  sentContentType : Option String := none
  body : List Payload := []
  deriving DecidableEq, Repr

namespace ResponseWriter

/-- w.Header().Set("Content-Type", v) -/
def setContentType (w : ResponseWriter) (v : String) : ResponseWriter :=
  { w with header := some v }

/-- w.WriteHeader(code): the first call sends the status line and the headers
set so far; a later call is ignored. -/
def WriteHeader (w : ResponseWriter) (code : Nat) : ResponseWriter :=
  match w.status with
  | some _ => w
  | none => { w with status := some code, sentContentType := w.header }

/-- w.Write(p): sends status 200 first when no status has been sent yet. -/
def Write (w : ResponseWriter) (p : Payload) : ResponseWriter :=
  let w1 := w.WriteHeader 200
  { w1 with body := w1.body ++ [p] }

end ResponseWriter

def StatusCreated : Nat := 201
def StatusNoContent : Nat := 204
def StatusBadRequest : Nat := 400
def StatusUnsupportedMediaType : Nat := 415
def StatusBadGateway : Nat := 502

/-- errorResponse of main.go. -/
def errorResponse (w : ResponseWriter) (message : String) (httpStatusCode : Nat) :
    ResponseWriter :=
  ((w.setContentType "application/json").WriteHeader httpStatusCode).Write
    (Payload.message message)

/-- AddBookHandler of main.go.  After a decode error the handler writes the
error response and, having no return there, goes on to store b. -/
def AddBookHandler (books : List Book) (r : Request) (w : ResponseWriter) :
    List Book × ResponseWriter :=
  if r.contentType ≠ "application/json" then
    (books, errorResponse w "Content Type is not application/json" StatusUnsupportedMediaType)
  else
    let w1 :=
      match r.err with
      | none => w
      | some (DecodeError.unmarshalType field) =>
          errorResponse w ("bad request:  incorrect type provided for field " ++ field)
            StatusBadRequest
      | some (DecodeError.other text) =>
          errorResponse w ("bad request: " ++ text) StatusBadGateway
    let b : Book := { r.decoded with Id := books.length + 1 }
    let books1 := books ++ [b]
    (books1, (((w1.setContentType "application/json").WriteHeader StatusCreated).Write
      (Payload.book b)))

/-- DeleteBooksHandler of main.go: books = books[:0]. -/
def DeleteBooksHandler (books : List Book) (w : ResponseWriter) :
    List Book × ResponseWriter :=
  (books.take 0, w.WriteHeader StatusNoContent)

/-- sortByTitle of main.go, on the records at the two indices: Go compares
strings bytewise, which on the UTF-8 text the JSON decoder produces is the
code point order of Lean strings. -/
def sortByTitle (a b : Book) : Bool :=
  decide (a.Title < b.Title)

/-- Inner loop of insertion sort: the record x moves left while it is less than
its left neighbour.  The argument is the part of the slice left of x, nearest
neighbour first, and so is the result. -/
def sinkLeft (less : Book → Book → Bool) (x : Book) : List Book → List Book
  | [] => [x]
  | y :: ys => if less x y then y :: sinkLeft less x ys else x :: y :: ys

/-- Outer loop of insertion sort: done is the sorted part of the slice,
last record first; todo is the rest. -/
def insertionSortLoop (less : Book → Book → Bool) : List Book → List Book → List Book
  | done, [] => done.reverse
  | done, x :: todo => insertionSortLoop less (sinkLeft less x done) todo

/-- sort.Slice of the Go library, modelled by insertion sort, the routine the
library runs on slices of at most twelve elements.  On longer slices the
library switches to a quicksort, whose result can differ from this one only in
the relative order of records that the less function does not separate. -/
def sortSlice (less : Book → Book → Bool) (x : List Book) : List Book :=
  insertionSortLoop less [] x

/-- GetBookHandler of main.go. -/
def GetBookHandler (books : List Book) (w : ResponseWriter) :
    List Book × ResponseWriter :=
  let books1 := sortSlice sortByTitle books
  (books1, (((w.setContentType "application/json").WriteHeader StatusCreated).Write
    (Payload.books books1)))

/-- The three routes on /api/books. -/
inductive Op where
  | create (r : Request)
  | list
  | deleteAll
  deriving DecidableEq, Repr

/-- The router: each request is served by its handler with a fresh response
writer. -/
def serve (books : List Book) : Op → List Book × ResponseWriter
  | Op.create r => AddBookHandler books r {}
  | Op.list => GetBookHandler books {}
  | Op.deleteAll => DeleteBooksHandler books {}

/-- The catalog after a sequence of requests served one after the other. -/
def catalogAfter (books : List Book) : List Op → List Book
  | [] => books
  | op :: ops => catalogAfter (serve books op).1 ops

/-- The responses to a sequence of requests served one after the other. -/
def responses (books : List Book) : List Op → List ResponseWriter
  | [] => []
  | op :: ops => (serve books op).2 :: responses (serve books op).1 ops

/-- The identifier a response carries: that of the Book written to its body. -/
def returnedId (w : ResponseWriter) : Option Nat :=
  w.body.findSome? fun p =>
    match p with
    | Payload.book b => some b.Id
    | _ => none

/-- A Create request that passes both checks of AddBookHandler. -/
def validCreate (b : Book) : Request :=
  { contentType := "application/json", decoded := b, err := none }

/-- The (author, title, yearPublished) a Create request submitted, paired with
the identifier its response reported; nothing when the response carries none. -/
def acknowledgedRecord (r : Request) (w : ResponseWriter) : Option Book :=
  (returnedId w).map fun i =>
    { Author := r.decoded.Author, Title := r.decoded.Title,
      YearPublished := r.decoded.YearPublished, Id := i }

/-- The records acknowledged by the responses to a sequence of requests, in the
order of the requests. -/
def acknowledged : List Op → List ResponseWriter → List Book
  | Op.create r :: ops, w :: ws =>
      match acknowledgedRecord r w with
      | some b => b :: acknowledged ops ws
      | none => acknowledged ops ws
  | _ :: ops, _ :: ws => acknowledged ops ws
  | _, _ => []

/-- The Create requests of a sequence. -/
def creates : List Op → List Request
  | [] => []
  | Op.create r :: ops => r :: creates ops
  | _ :: ops => creates ops

/-- A List request, or a Create request that passes both checks. -/
def Op.isListOrValidCreate : Op → Bool
  | Op.create r => decide (r.contentType = "application/json") && r.err.isNone
  | Op.list => true
  | Op.deleteAll => false

/-- Any request but Delete-All. -/
def Op.isNotDeleteAll : Op → Bool
  | Op.deleteAll => false
  | _ => true

/-- The identifiers held in the catalog are 1, ..., length, in some order. -/
def IdsUpToLength (c : List Book) : Prop :=
  (c.map Book.Id).Perm (List.range' 1 c.length)

/-! ## The sort -/

theorem sinkLeft_perm (less : Book → Book → Bool) (x : Book) (l : List Book) :
    (sinkLeft less x l).Perm (x :: l) := by
  induction l with
  | nil => exact List.Perm.refl _
  | cons y ys ih =>
    unfold sinkLeft
    split
    · exact (List.Perm.cons y ih).trans (List.Perm.swap x y ys)
    · exact List.Perm.refl _

theorem insertionSortLoop_perm (less : Book → Book → Bool) (todo done : List Book) :
    (insertionSortLoop less done todo).Perm (done ++ todo) := by
  induction todo generalizing done with
  | nil => simp [insertionSortLoop]
  | cons x todo ih =>
    unfold insertionSortLoop
    refine (ih (sinkLeft less x done)).trans ?_
    refine ((sinkLeft_perm less x done).append_right todo).trans ?_
    exact (List.perm_middle).symm

theorem sortSlice_perm (less : Book → Book → Bool) (l : List Book) :
    (sortSlice less l).Perm l := by
  simpa [sortSlice] using insertionSortLoop_perm less l []

theorem sortSlice_length (less : Book → Book → Bool) (l : List Book) :
    (sortSlice less l).length = l.length :=
  (sortSlice_perm less l).length_eq

theorem sinkLeft_descending (x : Book) (l : List Book)
    (h : l.Pairwise fun a b => b.Title ≤ a.Title) :
    (sinkLeft sortByTitle x l).Pairwise fun a b => b.Title ≤ a.Title := by
  induction l with
  | nil => simp [sinkLeft]
  | cons y ys ih =>
    rw [List.pairwise_cons] at h
    unfold sinkLeft
    split
    next hlt =>
      have hxy : x.Title < y.Title := by simpa [sortByTitle] using hlt
      rw [List.pairwise_cons]
      refine ⟨fun b hb => ?_, ih h.2⟩
      rcases List.mem_cons.1 ((sinkLeft_perm sortByTitle x ys).subset hb) with hbx | hbys
      · exact hbx ▸ le_of_lt hxy
      · exact h.1 b hbys
    next hlt =>
      have hyx : y.Title ≤ x.Title := by
        have : ¬ x.Title < y.Title := by simpa [sortByTitle] using hlt
        exact not_lt.1 this
      rw [List.pairwise_cons]
      refine ⟨fun b hb => ?_, List.pairwise_cons.2 h⟩
      rcases List.mem_cons.1 hb with hby | hbys
      · exact hby ▸ hyx
      · exact le_trans (h.1 b hbys) hyx

theorem insertionSortLoop_sorted (todo done : List Book)
    (h : done.Pairwise fun a b => b.Title ≤ a.Title) :
    (insertionSortLoop sortByTitle done todo).Pairwise fun a b => a.Title ≤ b.Title := by
  induction todo generalizing done with
  | nil => simpa [insertionSortLoop, List.pairwise_reverse] using h
  | cons x todo ih =>
    unfold insertionSortLoop
    exact ih _ (sinkLeft_descending x done h)

theorem sortSlice_sorted (l : List Book) :
    (sortSlice sortByTitle l).Pairwise fun a b => a.Title ≤ b.Title :=
  insertionSortLoop_sorted l [] List.Pairwise.nil

/-! ## Facts about one request -/

theorem AddBookHandler_fst (c : List Book) (r : Request) (w : ResponseWriter) :
    (AddBookHandler c r w).1 =
      if r.contentType ≠ "application/json" then c
      else c ++ [⟨r.decoded.Author, r.decoded.Title, r.decoded.YearPublished, c.length + 1⟩] := by
  unfold AddBookHandler
  split <;> rfl

theorem AddBookHandler_validCreate (c : List Book) (b : Book) :
    AddBookHandler c (validCreate b) {} =
      (c ++ [⟨b.Author, b.Title, b.YearPublished, c.length + 1⟩],
        { header := some "application/json", status := some 201,
          sentContentType := some "application/json",
          body := [Payload.book ⟨b.Author, b.Title, b.YearPublished, c.length + 1⟩] }) := by
  simp [AddBookHandler, validCreate, ResponseWriter.setContentType,
    ResponseWriter.WriteHeader, ResponseWriter.Write, StatusCreated]

theorem AddBookHandler_returnedId (c : List Book) (r : Request) :
    returnedId (AddBookHandler c r {}).2 =
      if r.contentType ≠ "application/json" then none else some (c.length + 1) := by
  unfold AddBookHandler
  split
  · simp [returnedId, errorResponse, ResponseWriter.setContentType,
      ResponseWriter.WriteHeader, ResponseWriter.Write]
  · rcases r with ⟨ct, b, err⟩
    rcases err with _ | e
    · simp [returnedId, ResponseWriter.setContentType, ResponseWriter.WriteHeader,
        ResponseWriter.Write]
    · cases e <;>
      simp [returnedId, errorResponse, ResponseWriter.setContentType,
        ResponseWriter.WriteHeader, ResponseWriter.Write]

theorem serve_length_le (c : List Book) (op : Op) (h : op.isNotDeleteAll = true) :
    c.length ≤ (serve c op).1.length := by
  cases op with
  | create r =>
    simp only [serve, AddBookHandler_fst]
    split <;> simp
  | list => simp [serve, GetBookHandler, sortSlice_length]
  | deleteAll => simp [Op.isNotDeleteAll] at h

theorem catalogAfter_length_le (ops : List Op) (c : List Book)
    (h : ∀ op ∈ ops, op.isNotDeleteAll = true) :
    c.length ≤ (catalogAfter c ops).length := by
  induction ops generalizing c with
  | nil => simp [catalogAfter]
  | cons op ops ih =>
    simp only [catalogAfter]
    exact le_trans (serve_length_le c op (h op (List.mem_cons_self _ _)))
      (ih _ fun o ho => h o (List.mem_cons_of_mem _ ho))

theorem catalogAfter_append (a b : List Op) (c : List Book) :
    catalogAfter c (a ++ b) = catalogAfter (catalogAfter c a) b := by
  induction a generalizing c with
  | nil => rfl
  | cons op a ih => exact ih (serve c op).1

/-- Between two Create requests with no Delete-All in between, the identifier
returned grows. -/
theorem returnedId_lt (c : List Book) (r1 r2 : Request) (mid : List Op) (i1 i2 : Nat)
    (hmid : ∀ op ∈ mid, op.isNotDeleteAll = true)
    (h1 : returnedId (serve c (Op.create r1)).2 = some i1)
    (h2 : returnedId (serve (catalogAfter c (Op.create r1 :: mid)) (Op.create r2)).2 = some i2) :
    i1 < i2 := by
  simp only [serve, AddBookHandler_returnedId] at h1 h2
  have hlen := catalogAfter_length_le mid (serve c (Op.create r1)).1 hmid
  simp only [catalogAfter] at h2
  simp only [serve, AddBookHandler_fst] at hlen h2
  split at h1
  · cases h1
  · split at h2
    · cases h2
    · rename_i hct1 _
      simp only [Option.some.injEq] at h1 h2
      rw [if_neg hct1, List.length_append, List.length_singleton] at hlen
      omega

theorem serve_IdsUpToLength (c : List Book) (op : Op) (h : IdsUpToLength c) :
    IdsUpToLength (serve c op).1 := by
  cases op with
  | create r =>
    simp only [serve, AddBookHandler_fst]
    split
    · exact h
    · unfold IdsUpToLength at h ⊢
      simp only [List.map_append, List.map_cons, List.map_nil, List.length_append,
        List.length_singleton, List.range'_1_concat]
      rw [Nat.add_comm 1 c.length]
      exact h.append_right _
  | list =>
    unfold IdsUpToLength at h ⊢
    simp only [serve, GetBookHandler, sortSlice_length]
    exact ((sortSlice_perm sortByTitle c).map Book.Id).trans h
  | deleteAll => simp [serve, DeleteBooksHandler, IdsUpToLength]

theorem catalogAfter_IdsUpToLength (ops : List Op) (c : List Book) (h : IdsUpToLength c) :
    IdsUpToLength (catalogAfter c ops) := by
  induction ops generalizing c with
  | nil => exact h
  | cons op ops ih => exact ih _ (serve_IdsUpToLength c op h)

theorem catalogAfter_acknowledged (ops : List Op) (c : List Book)
    (h : ∀ op ∈ ops, op.isListOrValidCreate = true) :
    (catalogAfter c ops).Perm (c ++ acknowledged ops (responses c ops)) ∧
      (catalogAfter c ops).length = c.length + (creates ops).length := by
  induction ops generalizing c with
  | nil => simp [catalogAfter, acknowledged, creates]
  | cons op ops ih =>
    have hop := h op (List.mem_cons_self _ _)
    have ih1 := ih (serve c op).1 fun o ho => h o (List.mem_cons_of_mem _ ho)
    cases op with
    | create r =>
      simp only [Op.isListOrValidCreate, Bool.and_eq_true, decide_eq_true_eq] at hop
      have hfst : (serve c (Op.create r)).1 =
          c ++ [⟨r.decoded.Author, r.decoded.Title, r.decoded.YearPublished, c.length + 1⟩] := by
        simp [serve, AddBookHandler_fst, hop.1]
      have hack : acknowledgedRecord r (serve c (Op.create r)).2 =
          some ⟨r.decoded.Author, r.decoded.Title, r.decoded.YearPublished, c.length + 1⟩ := by
        simp [acknowledgedRecord, serve, AddBookHandler_returnedId, hop.1]
      simp only [catalogAfter, responses, acknowledged, creates, hack]
      rw [hfst] at ih1 ⊢
      refine ⟨by simpa using ih1.1, ?_⟩
      rw [ih1.2, List.length_append, List.length_singleton, List.length_cons]
      omega
    | list =>
      simp only [catalogAfter, responses, acknowledged, creates]
      refine ⟨ih1.1.trans ?_, ?_⟩
      · exact (sortSlice_perm sortByTitle c).append_right _
      · rw [ih1.2]
        simp [serve, GetBookHandler, sortSlice_length]
    | deleteAll => simp [Op.isListOrValidCreate] at hop

/-! ## Single requests -/

/-- C1: a Create request with content type application/json whose body decodes
to (author, title, yearPublished), whatever id it carries, appends the record
(author, title, yearPublished, length + 1) at the end of the catalog and is
answered with status 201 and that record. -/
theorem AddBookHandler_success (c : List Book) (author title : String) (year id : Nat) :
    AddBookHandler c (validCreate ⟨author, title, year, id⟩) {} =
      (c ++ [⟨author, title, year, c.length + 1⟩],
        { header := some "application/json", status := some 201,
          sentContentType := some "application/json",
          body := [Payload.book ⟨author, title, year, c.length + 1⟩] }) := by
  simp [AddBookHandler, validCreate, ResponseWriter.setContentType,
    ResponseWriter.WriteHeader, ResponseWriter.Write, StatusCreated]

/-- C2: evaluation of AddBookHandler on a body that fails to decode (a string
for yearPublished, on the empty catalog), and on every such body: the record
decoded so far is stored all the same, so the catalog has one record more than
before. -/
theorem AddBookHandler_decode_error_stores :
    (AddBookHandler [] ⟨"application/json", ⟨"A", "T", 0, 0⟩,
        some (DecodeError.unmarshalType "yearPublished")⟩ {}).1 = [⟨"A", "T", 0, 1⟩] ∧
    ∀ (c : List Book) (b : Book) (e : DecodeError),
      (AddBookHandler c ⟨"application/json", b, some e⟩ {}).1 = c ++ [⟨b.Author, b.Title, b.YearPublished, c.length + 1⟩] ∧
      (AddBookHandler c ⟨"application/json", b, some e⟩ {}).1.length = c.length + 1 := by
  refine ⟨by simp [AddBookHandler], fun c b e => ?_⟩
  simp [AddBookHandler]

/-- C3: a Create request whose Content-Type is not exactly application/json is
answered with status 415 and the single body write of the message
"Content Type is not application/json", sent as application/json, and the
catalog stays as it was. -/
theorem AddBookHandler_wrong_content_type (c : List Book) (r : Request)
    (h : r.contentType ≠ "application/json") :
    AddBookHandler c r {} =
      (c,
        { header := some "application/json", status := some 415,
          sentContentType := some "application/json",
          body := [Payload.message "Content Type is not application/json"] }) := by
  simp [AddBookHandler, h, errorResponse, ResponseWriter.setContentType,
    ResponseWriter.WriteHeader, ResponseWriter.Write, StatusUnsupportedMediaType]

theorem AddBookHandler_wrong_content_type_witness :
    (⟨"text/plain", ⟨"A", "T", 1, 0⟩, none⟩ : Request).contentType ≠ "application/json" ∧
    AddBookHandler [⟨"B", "U", 2, 1⟩] ⟨"text/plain", ⟨"A", "T", 1, 0⟩, none⟩ {} =
      ([⟨"B", "U", 2, 1⟩],
        { header := some "application/json", status := some 415,
          sentContentType := some "application/json",
          body := [Payload.message "Content Type is not application/json"] }) :=
  ⟨by decide, AddBookHandler_wrong_content_type _ _ (by decide)⟩

/-- C4: evaluation of AddBookHandler on bodies that fail to decode: a field of
the wrong type is answered with status 400, an unknown field with status 502
(the later WriteHeader(201) is ignored in both cases). -/
theorem AddBookHandler_decode_error_status :
    (AddBookHandler [] ⟨"application/json", ⟨"A", "T", 1, 0⟩,
        some (unknownField "publisher")⟩ {}).2.status = some 502 ∧
    (∀ (c : List Book) (b : Book) (key : String),
      (AddBookHandler c ⟨"application/json", b, some (unknownField key)⟩ {}).2.status
        = some 502) ∧
    (∀ (c : List Book) (b : Book) (field : String),
      (AddBookHandler c ⟨"application/json", b,
        some (DecodeError.unmarshalType field)⟩ {}).2.status = some 400) := by
  refine ⟨?_, fun c b key => ?_, fun c b field => ?_⟩ <;>
  simp [AddBookHandler, unknownField, errorResponse, ResponseWriter.setContentType,
    ResponseWriter.WriteHeader, ResponseWriter.Write, StatusBadGateway, StatusBadRequest,
    StatusCreated]

/-- C5: GetBookHandler sorts the catalog in place by title: the catalog after
the call is a permutation of the catalog before, every title in it is at most
the titles after it (in particular the title of the next record), and the
response has status 201 and carries exactly that sequence under books. -/
theorem GetBookHandler_sorts (c : List Book) :
    (GetBookHandler c {}).1.Perm c ∧
    (GetBookHandler c {}).1.Pairwise (fun a b => a.Title ≤ b.Title) ∧
    (GetBookHandler c {}).1.Chain' (fun a b => a.Title ≤ b.Title) ∧
    (GetBookHandler c {}).2 =
      { header := some "application/json", status := some 201,
        sentContentType := some "application/json",
        body := [Payload.books (GetBookHandler c {}).1] } := by
  refine ⟨sortSlice_perm _ c, sortSlice_sorted c, (sortSlice_sorted c).chain', ?_⟩
  simp [GetBookHandler, ResponseWriter.setContentType, ResponseWriter.WriteHeader,
    ResponseWriter.Write, StatusCreated]

/-- C6: from the empty catalog, after any sequence of successful Create
requests and List requests, a List request is answered with status 201 and a
sequence of exactly as many records as there were Create requests; as a
multiset they are the submitted (author, title, yearPublished), each with the
identifier the response to its Create reported. -/
theorem list_returns_created (ops : List Op)
    (h : ∀ op ∈ ops, op.isListOrValidCreate = true) :
    ∃ l : List Book,
      (serve (catalogAfter [] ops) Op.list).2.status = some 201 ∧
      (serve (catalogAfter [] ops) Op.list).2.body = [Payload.books l] ∧
      l.length = (creates ops).length ∧
      (acknowledged ops (responses [] ops)).length = (creates ops).length ∧
      l.Perm (acknowledged ops (responses [] ops)) := by
  have hc := catalogAfter_acknowledged ops [] h
  simp only [List.nil_append, List.length_nil, Nat.zero_add] at hc
  refine ⟨sortSlice sortByTitle (catalogAfter [] ops), ?_, ?_, ?_, ?_, ?_⟩
  · simp [serve, GetBookHandler, ResponseWriter.setContentType, ResponseWriter.WriteHeader,
      ResponseWriter.Write, StatusCreated]
  · simp [serve, GetBookHandler, ResponseWriter.setContentType, ResponseWriter.WriteHeader,
      ResponseWriter.Write]
  · rw [sortSlice_length, hc.2]
  · rw [← hc.1.length_eq, hc.2]
  · exact (sortSlice_perm _ _).trans hc.1

theorem list_returns_created_witness :
    (∀ op ∈ [Op.create (validCreate ⟨"Herman Melville", "Moby Dick", 1851, 0⟩), Op.list,
        Op.create (validCreate ⟨"Philip K. Dick", "Ubik", 1969, 7⟩)],
      op.isListOrValidCreate = true) ∧
    ∃ l : List Book,
      (serve (catalogAfter [] [Op.create (validCreate ⟨"Herman Melville", "Moby Dick", 1851, 0⟩),
        Op.list, Op.create (validCreate ⟨"Philip K. Dick", "Ubik", 1969, 7⟩)]) Op.list).2.status
          = some 201 ∧
      (serve (catalogAfter [] [Op.create (validCreate ⟨"Herman Melville", "Moby Dick", 1851, 0⟩),
        Op.list, Op.create (validCreate ⟨"Philip K. Dick", "Ubik", 1969, 7⟩)]) Op.list).2.body
          = [Payload.books l] ∧
      l.length = (creates [Op.create (validCreate ⟨"Herman Melville", "Moby Dick", 1851, 0⟩),
        Op.list, Op.create (validCreate ⟨"Philip K. Dick", "Ubik", 1969, 7⟩)]).length ∧
      (acknowledged [Op.create (validCreate ⟨"Herman Melville", "Moby Dick", 1851, 0⟩),
        Op.list, Op.create (validCreate ⟨"Philip K. Dick", "Ubik", 1969, 7⟩)]
        (responses [] [Op.create (validCreate ⟨"Herman Melville", "Moby Dick", 1851, 0⟩),
        Op.list, Op.create (validCreate ⟨"Philip K. Dick", "Ubik", 1969, 7⟩)])).length =
        (creates [Op.create (validCreate ⟨"Herman Melville", "Moby Dick", 1851, 0⟩),
        Op.list, Op.create (validCreate ⟨"Philip K. Dick", "Ubik", 1969, 7⟩)]).length ∧
      l.Perm (acknowledged [Op.create (validCreate ⟨"Herman Melville", "Moby Dick", 1851, 0⟩),
        Op.list, Op.create (validCreate ⟨"Philip K. Dick", "Ubik", 1969, 7⟩)]
        (responses [] [Op.create (validCreate ⟨"Herman Melville", "Moby Dick", 1851, 0⟩),
        Op.list, Op.create (validCreate ⟨"Philip K. Dick", "Ubik", 1969, 7⟩)])) :=
  ⟨by decide, list_returns_created _ (by decide)⟩

/-- C7: from the empty catalog, after any sequence of Create and List requests
(no Delete-All), a valid Create is answered with status 201 and its record, and
the identifier it returns is strictly greater than the identifier returned by
every earlier Create of the sequence. -/
theorem create_id_exceeds_earlier (ops : List Op) (b : Book)
    (h : ∀ op ∈ ops, op.isNotDeleteAll = true) :
    (serve (catalogAfter [] ops) (Op.create (validCreate b))).2.status = some 201 ∧
    ∃ i : Nat,
      returnedId (serve (catalogAfter [] ops) (Op.create (validCreate b))).2 = some i ∧
      (serve (catalogAfter [] ops) (Op.create (validCreate b))).2.body =
        [Payload.book ⟨b.Author, b.Title, b.YearPublished, i⟩] ∧
      ∀ (pre post : List Op) (r : Request) (j : Nat),
        ops = pre ++ Op.create r :: post →
        returnedId (serve (catalogAfter [] pre) (Op.create r)).2 = some j → j < i := by
  refine ⟨?_, (catalogAfter [] ops).length + 1, ?_, ?_, ?_⟩
  · simp [serve, AddBookHandler_validCreate]
  · simp [serve, AddBookHandler_validCreate, returnedId]
  · simp [serve, AddBookHandler_validCreate]
  · intro pre post r j hops hj
    subst hops
    have hpost : ∀ op ∈ post, op.isNotDeleteAll = true := fun o ho =>
      h o (List.mem_append_right _ (List.mem_cons_of_mem _ ho))
    refine returnedId_lt (catalogAfter [] pre) r (validCreate b) post j _ hpost hj ?_
    rw [← catalogAfter_append]
    simp [serve, AddBookHandler_validCreate, returnedId]

theorem create_id_exceeds_earlier_witness :
    (∀ op ∈ [Op.create (validCreate ⟨"Herman Melville", "Moby Dick", 1851, 0⟩), Op.list],
      op.isNotDeleteAll = true) ∧
    (serve (catalogAfter [] [Op.create (validCreate ⟨"Herman Melville", "Moby Dick", 1851, 0⟩),
      Op.list]) (Op.create (validCreate ⟨"Philip K. Dick", "Ubik", 1969, 7⟩))).2.status
        = some 201 ∧
    ∃ i : Nat,
      returnedId (serve (catalogAfter [] [Op.create (validCreate
        ⟨"Herman Melville", "Moby Dick", 1851, 0⟩), Op.list])
        (Op.create (validCreate ⟨"Philip K. Dick", "Ubik", 1969, 7⟩))).2 = some i ∧
      (serve (catalogAfter [] [Op.create (validCreate ⟨"Herman Melville", "Moby Dick", 1851, 0⟩),
        Op.list]) (Op.create (validCreate ⟨"Philip K. Dick", "Ubik", 1969, 7⟩))).2.body =
        [Payload.book ⟨"Philip K. Dick", "Ubik", 1969, i⟩] ∧
      ∀ (pre post : List Op) (r : Request) (j : Nat),
        [Op.create (validCreate ⟨"Herman Melville", "Moby Dick", 1851, 0⟩), Op.list] =
          pre ++ Op.create r :: post →
        returnedId (serve (catalogAfter [] pre) (Op.create r)).2 = some j → j < i :=
  ⟨by decide, create_id_exceeds_earlier _ ⟨"Philip K. Dick", "Ubik", 1969, 7⟩ (by decide)⟩

/-- C8: DeleteBooksHandler leaves the catalog empty, whatever it held, and
responds with status 204 and no body; a List request served right after is
answered with status 201 and the empty sequence of books. -/
theorem DeleteBooksHandler_clears (c : List Book) :
    DeleteBooksHandler c {} = ([], { status := some 204 }) ∧
    serve (DeleteBooksHandler c {}).1 Op.list =
      ([], { header := some "application/json", status := some 201,
             sentContentType := some "application/json",
             body := [Payload.books []] }) := by
  constructor
  · simp [DeleteBooksHandler, ResponseWriter.WriteHeader, StatusNoContent]
  · simp [DeleteBooksHandler, serve, GetBookHandler, sortSlice, insertionSortLoop,
      ResponseWriter.setContentType, ResponseWriter.WriteHeader, ResponseWriter.Write,
      StatusCreated]

/-- C9, as stated, fails: the first Create is given identifier 1, and so is
the Create that follows a Delete-All. -/
theorem id_reused_after_delete_all :
    returnedId (serve (catalogAfter [] [])
      (Op.create (validCreate ⟨"Herman Melville", "Moby Dick", 1851, 0⟩))).2 = some 1 ∧
    returnedId (serve (catalogAfter []
      [Op.create (validCreate ⟨"Herman Melville", "Moby Dick", 1851, 0⟩), Op.deleteAll])
      (Op.create (validCreate ⟨"Philip K. Dick", "Ubik", 1969, 0⟩))).2 = some 1 := by
  constructor <;> decide

/-- C9, amended: in any sequence of Create, List and Delete-All requests from
the empty catalog, the identifier returned by a Create is not returned again by
a later Create when no Delete-All is served between the two. -/
theorem id_not_reused_without_delete_all (pre mid : List Op) (r1 r2 : Request) (i1 i2 : Nat)
    (hmid : ∀ op ∈ mid, op.isNotDeleteAll = true)
    (h1 : returnedId (serve (catalogAfter [] pre) (Op.create r1)).2 = some i1)
    (h2 : returnedId (serve (catalogAfter [] (pre ++ Op.create r1 :: mid))
      (Op.create r2)).2 = some i2) :
    i1 ≠ i2 := by
  rw [catalogAfter_append] at h2
  exact Nat.ne_of_lt (returnedId_lt _ r1 r2 mid i1 i2 hmid h1 h2)

theorem id_not_reused_without_delete_all_witness :
    (∀ op ∈ [Op.list], op.isNotDeleteAll = true) ∧
    returnedId (serve (catalogAfter []
      [Op.create (validCreate ⟨"Herman Melville", "Moby Dick", 1851, 0⟩), Op.deleteAll])
      (Op.create (validCreate ⟨"Philip K. Dick", "Ubik", 1969, 0⟩))).2 = some 1 ∧
    returnedId (serve (catalogAfter []
      ([Op.create (validCreate ⟨"Herman Melville", "Moby Dick", 1851, 0⟩), Op.deleteAll] ++
        Op.create (validCreate ⟨"Philip K. Dick", "Ubik", 1969, 0⟩) :: [Op.list]))
      (Op.create (validCreate ⟨"Douglas Adams", "Mostly Harmless", 1992, 0⟩))).2 = some 2 ∧
    (1 : Nat) ≠ 2 :=
  ⟨by decide, by decide, by decide,
    id_not_reused_without_delete_all
      [Op.create (validCreate ⟨"Herman Melville", "Moby Dick", 1851, 0⟩), Op.deleteAll]
      [Op.list] (validCreate ⟨"Philip K. Dick", "Ubik", 1969, 0⟩)
      (validCreate ⟨"Douglas Adams", "Mostly Harmless", 1992, 0⟩) 1 2
      (by decide) (by decide) (by decide)⟩

/-- C10: in every state reached from the empty catalog by Create (accepted or
rejected), List and Delete-All requests, the records of the catalog have
pairwise distinct identifiers. -/
theorem catalog_ids_distinct (ops : List Op) :
    (catalogAfter [] ops).Pairwise (fun a b => a.Id ≠ b.Id) := by
  have h : IdsUpToLength (catalogAfter [] ops) :=
    catalogAfter_IdsUpToLength ops [] (by simp [IdsUpToLength])
  have hnodup : ((catalogAfter [] ops).map Book.Id).Nodup :=
    h.nodup_iff.2 (List.nodup_range' 1 _)
  exact List.pairwise_map.1 hnodup

end BookCatalog
